import Mathlib

/-!
Verification of the domain-resource handlers of the Iamus domain directory
service (`src/routes/api/v1/domains/domainId.ts`): the GET (read), PUT
(heartbeat/update) and DELETE handlers, their permission gate, payload
normalization, change-set commit and cascading deletion.

Collaborators that live outside this file in the repository
(`checkAccessToEntity`, `setDomainField`, the `Domains`/`Places`/`Accounts`
stores, `buildDomainInfoV1`) are either abstracted as parameters or modelled
from the specification; each such definition says so in its doc comment.
-/

/-- JSON-like values as sent in request bodies and stored in entity records.
`time` models a JavaScript `Date`. -/
inductive JValue where
  | undefined : JValue
  | jnull : JValue
  | bool (b : Bool) : JValue
  | num (n : Int) : JValue
  | str (s : String) : JValue
  | time (t : Nat) : JValue
  | obj (kvs : List (String × JValue)) : JValue

/-- JavaScript truthiness: `undefined`, `null`, `false`, `0` and `""` are
falsy; every object, including the empty object `\x7b\x7d`, is truthy. -/
def JValue.truthy : JValue → Bool
  | .undefined => false
  | .jnull => false
  | .bool b => b
  | .num n => n != 0
  | .str s => s != ""
  | .time _ => true
  | .obj _ => true

/-- `hasOwnProperty` plus indexing: the own property `k` of an object, when
present. -/
def JValue.getOwn : JValue → String → Option JValue
  | .obj kvs, k => (kvs.find? (fun kv => kv.1 == k)).map (fun kv => kv.2)
  | _, _ => none

/-- JavaScript member access `v.k`: the own property when present, otherwise
`undefined` (member access on a non-object is modelled as `undefined`). -/
def JValue.getProp (v : JValue) (k : String) : JValue :=
  (v.getOwn k).getD .undefined

/-- `VKeyedCollection` (`@Tools/vTypes`): a string-keyed collection of values,
modelled as an association list written by `setKey`. -/
abbrev VKeyedCollection := List (String × JValue)

/-- JavaScript property assignment `coll[k] = v`: overwrite in place when the
key is present, otherwise append. -/
def setKey : VKeyedCollection → String → JValue → VKeyedCollection
  | [], k, v => [(k, v)]
  | kv :: rest, k, v => if kv.1 = k then (k, v) :: rest else kv :: setKey rest k v

/-- Property read on a keyed collection. -/
def getKey : VKeyedCollection → String → Option JValue
  | [], _ => none
  | kv :: rest, k => if kv.1 = k then some kv.2 else getKey rest k

/-- The keys of a keyed collection. -/
def keysOf (m : VKeyedCollection) : List String := m.map Prod.fst

/-- An authentication credential (`req.vAuthToken`), opaque to these
handlers. -/
structure AuthToken where
  tokenId : Nat
deriving DecidableEq

/-- Modelled from the spec: an Account carries at minimum an administrator
role flag (the rest of the Account record does not influence these
handlers). -/
structure Account where
  accountId : String
  administrator : Bool
deriving DecidableEq

/-- Modelled from the spec: `Accounts.isAdmin` (`@Entities/Accounts`, not
under `src/`) tests the administrator flag of an Account. -/
def Accounts.isAdmin (a : Account) : Bool := a.administrator

/-- A Domain record: its immutable identifier plus its stored fields. -/
structure DomainRec where
  domainId : String
  fields : VKeyedCollection

/-- A Place record: identifier and foreign reference to one Domain. -/
structure Place where
  placeId : String
  domainId : String
deriving DecidableEq

/-- The backing entity store for Domains and Places. -/
structure Store where
  domains : List DomainRec
  places : List Place

/-- The permission roles the update gate requests (`Perm` from
`@Route-Tools/Permissions`; the closed role set of the spec). -/
inductive Perm where
  | DOMAIN | SPONSOR | ADMIN
deriving DecidableEq

/-- The response envelope (`RESTResponse`) as these handlers drive it:
`respondFailure msg` records the failure message; the unresolved-domain
paths additionally set the HTTP status to 401 (Unauthorized). -/
structure RestResp where
  failure : Option String := none
  httpStatus : Option Nat := none
  data : Option JValue := none
  additional : List (String × JValue) := []

/-- The type of `checkAccessToEntity` (`@Route-Tools/Permissions`, not under
`src/`): an oracle deciding whether a credential holds at least one of the
requested roles for a target Domain (per the spec it fails closed and has no
side effects). The handlers are parametrized over it. -/
abbrev AccessChecker := AuthToken → DomainRec → List Perm → Bool

/-- The per-field validation/coercion rule of the Field Update Engine,
abstracted: given credential, target, acting account, field name and
candidate value, it yields the validated value to record, or `none` to fail
silently. -/
abbrev Validator := AuthToken → DomainRec → Option Account → String → JValue → Option JValue

/-- Modelled from the spec: `setDomainField` (`@Entities/DomainEntity`, not
under `src/`) validates the candidate value for the named field and, on
success, writes the field's new value into the shared change-set under that
field name; on validation failure it leaves the change-set unmodified
("failing silently"). -/
def setDomainField (V : Validator) (tok : AuthToken) (dom : DomainRec)
    (field : String) (value : JValue) (acct : Option Account)
    (updated : VKeyedCollection) : VKeyedCollection :=
  match V tok dom acct field value with
  | some v => setKey updated field v
  | none => updated

/-- Modelled from the spec: `Domains.updateEntityFields` (`@Entities/Domains`,
not under `src/`) merges the accumulated change-set into the stored Domain
record as one logical update. -/
def Domains.updateEntityFields (dom : DomainRec) (cs : VKeyedCollection) : DomainRec :=
  { dom with fields := cs.foldl (fun f kv => setKey f kv.1 kv.2) dom.fields }

/-- Modelled from the spec: `Domains.removeDomain` removes the Domain from the
store. -/
def Domains.removeDomain (s : Store) (d : DomainRec) : Store :=
  { s with domains := s.domains.filter (fun q => q.domainId != d.domainId) }

/-- Modelled from the spec: `Places.removePlace` removes the given Place from
the store. -/
def Places.removePlace (s : Store) (p : Place) : Store :=
  { s with places := s.places.filter (fun q => q.placeId != p.placeId) }

/-- Modelled from the spec: `Places.enumerateAsync` with a `GenericFilter` on
`domainId` yields every Place whose `domainId` matches; none is skipped. -/
def Places.enumerateByDomainId (s : Store) (domainId : String) : List Place :=
  s.places.filter (fun p => p.domainId == domainId)

/-- Request context for GET, as attached by the middleware. -/
structure GetReq where
  vDomain : Option DomainRec
  vDomainError : Option String

/-- GET `/api/v1/domains/:domainId` (`procGetDomainsDomainid`).
`buildDomainInfoV1` (`@Route-Tools/Util`, not under `src/`) is abstracted as
the parameter `buildInfo` producing the public info object for a Domain; the
handler copies `domainId` to a legacy `id` property and mirrors the info as
an additional top-level field. -/
def procGetDomainsDomainid (buildInfo : DomainRec → JValue) (req : GetReq) : RestResp :=
  match req.vDomain with
  | some aDomain =>
      let domainInfo := buildInfo aDomain
      let domainInfo := match domainInfo with
        | .obj kvs => JValue.obj (setKey kvs "id" (domainInfo.getProp "domainId"))
        | v => v
      { failure := none, httpStatus := none,
        data := some (JValue.obj [("domain", domainInfo)]),
        additional := [("domain", domainInfo)] }
  | none =>
      { failure := some (req.vDomainError.getD "Domain not found"),
        httpStatus := some 401, data := none, additional := [] }

/-- Request context for PUT, as attached by the middleware. -/
structure PutReq where
  vDomain : Option DomainRec
  vDomainError : Option String
  vAuthToken : AuthToken
  vAuthAccount : Option Account
  body : JValue

/-- The role set the PUT handler requests from `checkAccessToEntity`. -/
def putUpdateRoles : List Perm := [Perm.DOMAIN, Perm.SPONSOR, Perm.ADMIN]

/-- The flat-shape allow-list iterated at lines 72-73 of the source. -/
def flatAllowList : List String :=
  ["version", "protocol", "network_addr", "network_port", "automatic_networking",
   "restricted", "capacity", "description", "maturity", "restriction", "hosts", "tags"]

/-- The nested `meta`-shape allow-list iterated at lines 86-87 of the source. -/
def metaAllowList : List String :=
  ["capacity", "contact_info", "description", "managers", "tags", "images",
   "maturity", "restriction", "thumbnail", "world_name"]

/-- The sequence of (field, value) pairs the PUT handler passes to
`setDomainField`, in source order: the flat allow-list loop over own
properties of `valuesToSet`, then the two heartbeat-derived fields when
`valuesToSet.hasOwnProperty('heartbeat')`, then, when `valuesToSet.meta` is
truthy, the meta allow-list loop over own properties of `valuesToSet.meta`. -/
def putFieldCalls (valuesToSet : JValue) : List (String × JValue) :=
  (flatAllowList.filterMap (fun field => (valuesToSet.getOwn field).map (fun v => (field, v))))
  ++ (if (valuesToSet.getOwn "heartbeat").isSome then
        [("num_users", (valuesToSet.getProp "heartbeat").getProp "num_users"),
         ("num_anon_users", (valuesToSet.getProp "heartbeat").getProp "num_anon_users")]
      else [])
  ++ (if (valuesToSet.getProp "meta").truthy then
        metaAllowList.filterMap
          (fun field => ((valuesToSet.getProp "meta").getOwn field).map (fun v => (field, v)))
      else [])

/-- Folding the handler's `setDomainField` calls into the change-set. -/
def applyFields (V : Validator) (tok : AuthToken) (dom : DomainRec) (acct : Option Account)
    (calls : List (String × JValue)) (updated : VKeyedCollection) : VKeyedCollection :=
  calls.foldl (fun upd kv => setDomainField V tok dom kv.1 kv.2 acct upd) updated

/-- Outcome of the PUT handler: the driven response plus the change-set handed
to `Domains.updateEntityFields`, if the handler committed one. -/
structure PutResult where
  resp : RestResp
  commit : Option VKeyedCollection

/-- PUT `/api/v1/domains/:domainId` (`procPutDomains`): resolution check,
permission gate for `putUpdateRoles`, truthiness check of `req.body.domain`,
field application, unconditional `timeOfLastHeartbeat` stamp, single commit. -/
def procPutDomains (A : AccessChecker) (V : Validator) (req : PutReq) (now : Nat) : PutResult :=
  match req.vDomain with
  | some aDomain =>
    if A req.vAuthToken aDomain putUpdateRoles then
      let valuesToSet := req.body.getProp "domain"
      if valuesToSet.truthy then
        let updated := applyFields V req.vAuthToken aDomain req.vAuthAccount
                          (putFieldCalls valuesToSet) []
        let updated := setKey updated "timeOfLastHeartbeat" (JValue.time now)
        { resp := {}, commit := some updated }
      else
        { resp := { failure := some "badly formed data" }, commit := none }
    else
      { resp := { failure := some "Unauthorized" }, commit := none }
  | none =>
      { resp := { failure := some (req.vDomainError.getD "Domain not found"),
                  httpStatus := some 401 },
        commit := none }

/-- Applying (or not) a committed change-set to the stored Domain. -/
def applyCommit (dom : DomainRec) : Option VKeyedCollection → DomainRec
  | some cs => Domains.updateEntityFields dom cs
  | none => dom

/-- Request context for DELETE, as attached by the middleware. -/
structure DeleteReq where
  vAuthAccount : Option Account
  vDomain : Option DomainRec

/-- One store mutation issued by the DELETE handler, in issue order. -/
inductive StoreOp where
  | removeDomain (domainId : String)
  | removePlace (placeId : String)
deriving DecidableEq

/-- Outcome of the DELETE handler: response, resulting store and the ordered
trace of store mutations it issued. -/
structure DeleteResult where
  resp : RestResp
  store : Store
  ops : List StoreOp

/-- DELETE `/api/v1/domains/:domainId` (`procDeleteDomains`): account
resolution check, admin check, domain existence check, then domain removal
followed by removal of every Place whose `domainId` matches. -/
def procDeleteDomains (req : DeleteReq) (store : Store) : DeleteResult :=
  match req.vAuthAccount with
  | some acct =>
    if Accounts.isAdmin acct then
      match req.vDomain with
      | some dom =>
          let s1 := Domains.removeDomain store dom
          let matching := Places.enumerateByDomainId s1 dom.domainId
          let s2 := matching.foldl Places.removePlace s1
          { resp := {}, store := s2,
            ops := StoreOp.removeDomain dom.domainId
                    :: matching.map (fun p => StoreOp.removePlace p.placeId) }
      | none =>
          { resp := { failure := some "Target domain does not exist" },
            store := store, ops := [] }
    else
      { resp := { failure := some "Not authorized" }, store := store, ops := [] }
  | none =>
      { resp := { failure := some "Not authorized" }, store := store, ops := [] }

/-- One call of a sequence of heartbeat updates against the same Domain. -/
structure Step where
  tok : AuthToken
  acct : Option Account
  body : JValue
  now : Nat

/-- The PUT request context a step produces for the current Domain state. -/
def mkPutReq (dom : DomainRec) (st : Step) : PutReq :=
  { vDomain := some dom, vDomainError := none, vAuthToken := st.tok,
    vAuthAccount := st.acct, body := st.body }

/-- The clock values of the accepted (committed) steps of a sequence of PUT
calls, threading the store state through `Domains.updateEntityFields`. -/
def acceptedNowList (A : AccessChecker) (V : Validator) : DomainRec → List Step → List Nat
  | _, [] => []
  | dom, st :: rest =>
      match (procPutDomains A V (mkPutReq dom st) st.now).commit with
      | some cs => st.now :: acceptedNowList A V (Domains.updateEntityFields dom cs) rest
      | none => acceptedNowList A V dom rest

/-- The stored `timeOfLastHeartbeat` observed after each accepted step of a
sequence of PUT calls. -/
def hbAfterList (A : AccessChecker) (V : Validator) : DomainRec → List Step → List (Option JValue)
  | _, [] => []
  | dom, st :: rest =>
      match (procPutDomains A V (mkPutReq dom st) st.now).commit with
      | some cs =>
          let dom2 := Domains.updateEntityFields dom cs
          getKey dom2.fields "timeOfLastHeartbeat" :: hbAfterList A V dom2 rest
      | none => hbAfterList A V dom rest

/-! ## Helper lemmas about keyed collections -/

theorem getKey_setKey_self (m : VKeyedCollection) (k : String) (v : JValue) :
    getKey (setKey m k v) k = some v := by
  induction m with
  | nil => simp [setKey, getKey]
  | cons kv rest ih =>
      by_cases h : kv.1 = k
      · simp [setKey, h, getKey]
      · simp [setKey, h, getKey, ih]

theorem getKey_setKey_ne (m : VKeyedCollection) (k' k : String) (v : JValue)
    (h : k' ≠ k) : getKey (setKey m k' v) k = getKey m k := by
  induction m with
  | nil => simp [setKey, getKey, h]
  | cons kv rest ih =>
      by_cases h2 : kv.1 = k'
      · have h3 : ¬ (kv.1 = k) := by rw [h2]; exact h
        simp [setKey, h2, getKey, h, h3]
      · by_cases h4 : kv.1 = k
        · simp [setKey, h2, getKey, h4, Ne.symm h]
        · simp [setKey, h2, getKey, h4, ih]

theorem mem_keysOf_setKey (m : VKeyedCollection) (k : String) (v : JValue) (x : String)
    (hx : x ∈ keysOf (setKey m k v)) : x = k ∨ x ∈ keysOf m := by
  induction m with
  | nil => simp [setKey, keysOf] at hx; simp [hx]
  | cons kv rest ih =>
      by_cases h : kv.1 = k
      · simp [setKey, h, keysOf] at hx ⊢
        tauto
      · simp [setKey, h, keysOf] at hx ⊢
        rcases hx with h1 | h1
        · tauto
        · rcases ih (by simpa [keysOf] using h1) with h2 | h2
          · tauto
          · simp [keysOf] at h2; tauto

theorem keysOf_cons (kv : String × JValue) (l : VKeyedCollection) :
    keysOf (kv :: l) = kv.1 :: keysOf l := rfl

theorem keysOf_setKey_nodup (m : VKeyedCollection) (k : String) (v : JValue)
    (h : (keysOf m).Nodup) : (keysOf (setKey m k v)).Nodup := by
  induction m with
  | nil => simp [setKey, keysOf]
  | cons kv rest ih =>
      rw [keysOf_cons, List.nodup_cons] at h
      simp only [setKey]
      by_cases h2 : kv.1 = k
      · rw [if_pos h2, keysOf_cons, List.nodup_cons]
        exact ⟨h2 ▸ h.1, h.2⟩
      · rw [if_neg h2, keysOf_cons, List.nodup_cons]
        refine ⟨?_, ih h.2⟩
        intro hk
        rcases mem_keysOf_setKey rest k v kv.1 hk with h3 | h3
        · exact h2 h3
        · exact h.1 h3

theorem mem_keysOf_setDomainField (V : Validator) (tok : AuthToken) (dom : DomainRec)
    (field : String) (value : JValue) (acct : Option Account) (upd : VKeyedCollection)
    (x : String) (hx : x ∈ keysOf (setDomainField V tok dom field value acct upd)) :
    x = field ∨ x ∈ keysOf upd := by
  unfold setDomainField at hx
  cases hV : V tok dom acct field value with
  | some v => rw [hV] at hx; exact mem_keysOf_setKey upd field v x hx
  | none => rw [hV] at hx; exact Or.inr hx

theorem keysOf_setDomainField_nodup (V : Validator) (tok : AuthToken) (dom : DomainRec)
    (field : String) (value : JValue) (acct : Option Account) (upd : VKeyedCollection)
    (h : (keysOf upd).Nodup) :
    (keysOf (setDomainField V tok dom field value acct upd)).Nodup := by
  unfold setDomainField
  cases hV : V tok dom acct field value with
  | some v => exact keysOf_setKey_nodup upd field v h
  | none => exact h

theorem mem_keysOf_applyFields (V : Validator) (tok : AuthToken) (dom : DomainRec)
    (acct : Option Account) (calls : List (String × JValue)) :
    ∀ upd : VKeyedCollection, ∀ x ∈ keysOf (applyFields V tok dom acct calls upd),
      x ∈ calls.map Prod.fst ∨ x ∈ keysOf upd := by
  induction calls with
  | nil => intro upd x hx; exact Or.inr hx
  | cons c rest ih =>
      intro upd x hx
      rw [applyFields, List.foldl_cons] at hx
      rcases ih (setDomainField V tok dom c.1 c.2 acct upd) x hx with h1 | h1
      · exact Or.inl (by simp at h1 ⊢; tauto)
      · rcases mem_keysOf_setDomainField V tok dom c.1 c.2 acct upd x h1 with h2 | h2
        · exact Or.inl (by simp [h2])
        · exact Or.inr h2

theorem keysOf_applyFields_nodup (V : Validator) (tok : AuthToken) (dom : DomainRec)
    (acct : Option Account) (calls : List (String × JValue)) :
    ∀ upd : VKeyedCollection, (keysOf upd).Nodup →
      (keysOf (applyFields V tok dom acct calls upd)).Nodup := by
  induction calls with
  | nil => intro upd h; exact h
  | cons c rest ih =>
      intro upd h
      rw [applyFields, List.foldl_cons]
      exact ih _ (keysOf_setDomainField_nodup V tok dom c.1 c.2 acct upd h)

/-- Folding a change-set into stored fields leaves keys outside the
change-set untouched. -/
theorem getKey_foldl_not_mem (cs : VKeyedCollection) (k : String) :
    ∀ f : VKeyedCollection, k ∉ keysOf cs →
      getKey (cs.foldl (fun a kv => setKey a kv.1 kv.2) f) k = getKey f k := by
  induction cs with
  | nil => intro f _; rfl
  | cons kv rest ih =>
      intro f hk
      rw [keysOf_cons, List.mem_cons] at hk
      push_neg at hk
      rw [List.foldl_cons, ih (setKey f kv.1 kv.2) hk.2]
      exact getKey_setKey_ne f kv.1 k kv.2 (fun h => hk.1 h.symm)

/-- Folding a duplicate-free change-set into stored fields makes every key of
the change-set readable with its change-set value. -/
theorem getKey_foldl_mem (cs : VKeyedCollection) (k : String) (v : JValue) :
    ∀ f : VKeyedCollection, (keysOf cs).Nodup → getKey cs k = some v →
      getKey (cs.foldl (fun a kv => setKey a kv.1 kv.2) f) k = some v := by
  induction cs with
  | nil => intro f _ hg; simp [getKey] at hg
  | cons kv rest ih =>
      intro f hnd hg
      rw [keysOf_cons, List.nodup_cons] at hnd
      rw [List.foldl_cons]
      by_cases h : kv.1 = k
      · have hv : kv.2 = v := by
          rw [getKey, if_pos h] at hg
          exact Option.some.inj hg
        rw [getKey_foldl_not_mem rest k _ (h ▸ hnd.1), ← h, ← hv]
        exact getKey_setKey_self f kv.1 kv.2
      · rw [getKey, if_neg h] at hg
        exact ih (setKey f kv.1 kv.2) hnd.2 hg

/-- Every field name the PUT handler ever hands to `setDomainField` comes from
the flat allow-list, the two heartbeat-derived names, or the meta allow-list. -/
theorem putFieldCalls_names (valuesToSet : JValue) (x : String)
    (hx : x ∈ (putFieldCalls valuesToSet).map Prod.fst) :
    x ∈ flatAllowList ∨ x = "num_users" ∨ x = "num_anon_users" ∨ x ∈ metaAllowList := by
  unfold putFieldCalls at hx
  simp only [List.map_append, List.mem_append] at hx
  rcases hx with (h1 | h1) | h1
  · simp only [List.mem_map, List.mem_filterMap, Option.map_eq_some'] at h1
    obtain ⟨p, ⟨fld, hfld, w, _, hw⟩, hp⟩ := h1
    left
    rw [← hp, ← hw]
    exact hfld
  · by_cases hh : (valuesToSet.getOwn "heartbeat").isSome
    · rw [if_pos hh] at h1
      simp at h1
      tauto
    · rw [if_neg hh] at h1
      simp at h1
  · by_cases hm : (valuesToSet.getProp "meta").truthy
    · rw [if_pos hm] at h1
      simp only [List.mem_map, List.mem_filterMap, Option.map_eq_some'] at h1
      obtain ⟨p, ⟨fld, hfld, w, _, hw⟩, hp⟩ := h1
      right; right; right
      rw [← hp, ← hw]
      exact hfld
    · rw [if_neg hm] at h1
      simp at h1

/-! ## Branch characterizations of the handlers -/

theorem procPutDomains_unresolved (A : AccessChecker) (V : Validator) (req : PutReq)
    (now : Nat) (hdom : req.vDomain = none) :
    procPutDomains A V req now =
      { resp := { failure := some (req.vDomainError.getD "Domain not found"),
                  httpStatus := some 401 },
        commit := none } := by
  simp [procPutDomains, hdom]

theorem procPutDomains_denied (A : AccessChecker) (V : Validator) (req : PutReq)
    (now : Nat) (dom : DomainRec) (hdom : req.vDomain = some dom)
    (hA : A req.vAuthToken dom putUpdateRoles = false) :
    procPutDomains A V req now =
      { resp := { failure := some "Unauthorized" }, commit := none } := by
  simp [procPutDomains, hdom, hA]

theorem procPutDomains_noPayload (A : AccessChecker) (V : Validator) (req : PutReq)
    (now : Nat) (dom : DomainRec) (hdom : req.vDomain = some dom)
    (hA : A req.vAuthToken dom putUpdateRoles = true)
    (ht : (req.body.getProp "domain").truthy = false) :
    procPutDomains A V req now =
      { resp := { failure := some "badly formed data" }, commit := none } := by
  simp [procPutDomains, hdom, hA, ht]

theorem procPutDomains_accepted (A : AccessChecker) (V : Validator) (req : PutReq)
    (now : Nat) (dom : DomainRec) (hdom : req.vDomain = some dom)
    (hA : A req.vAuthToken dom putUpdateRoles = true)
    (ht : (req.body.getProp "domain").truthy = true) :
    procPutDomains A V req now =
      { resp := {},
        commit := some (setKey
          (applyFields V req.vAuthToken dom req.vAuthAccount
            (putFieldCalls (req.body.getProp "domain")) [])
          "timeOfLastHeartbeat" (JValue.time now)) } := by
  simp [procPutDomains, hdom, hA, ht]

/-- Every change-set the PUT handler commits carries the heartbeat stamp for
the call's clock value, and has duplicate-free keys. -/
theorem procPutDomains_commit_hb (A : AccessChecker) (V : Validator) (req : PutReq)
    (now : Nat) (cs : VKeyedCollection)
    (h : (procPutDomains A V req now).commit = some cs) :
    getKey cs "timeOfLastHeartbeat" = some (JValue.time now) ∧ (keysOf cs).Nodup := by
  cases hdom : req.vDomain with
  | none => rw [procPutDomains_unresolved A V req now hdom] at h; simp at h
  | some dom =>
      cases hA : A req.vAuthToken dom putUpdateRoles with
      | false => rw [procPutDomains_denied A V req now dom hdom hA] at h; simp at h
      | true =>
          cases ht : (req.body.getProp "domain").truthy with
          | false => rw [procPutDomains_noPayload A V req now dom hdom hA ht] at h; simp at h
          | true =>
              rw [procPutDomains_accepted A V req now dom hdom hA ht] at h
              simp only [Option.some.injEq] at h
              rw [← h]
              refine ⟨getKey_setKey_self _ _ _, ?_⟩
              exact keysOf_setKey_nodup _ _ _
                (keysOf_applyFields_nodup V req.vAuthToken dom req.vAuthAccount _ [] (by simp [keysOf]))

/-- Every key of a change-set the PUT handler commits is either the heartbeat
stamp or a field name handed to `setDomainField` for this payload. -/
theorem procPutDomains_commit_keys (A : AccessChecker) (V : Validator) (req : PutReq)
    (now : Nat) (cs : VKeyedCollection)
    (h : (procPutDomains A V req now).commit = some cs)
    (x : String) (hx : x ∈ keysOf cs) :
    x = "timeOfLastHeartbeat" ∨ x ∈ (putFieldCalls (req.body.getProp "domain")).map Prod.fst := by
  cases hdom : req.vDomain with
  | none => rw [procPutDomains_unresolved A V req now hdom] at h; simp at h
  | some dom =>
      cases hA : A req.vAuthToken dom putUpdateRoles with
      | false => rw [procPutDomains_denied A V req now dom hdom hA] at h; simp at h
      | true =>
          cases ht : (req.body.getProp "domain").truthy with
          | false => rw [procPutDomains_noPayload A V req now dom hdom hA ht] at h; simp at h
          | true =>
              rw [procPutDomains_accepted A V req now dom hdom hA ht] at h
              simp only [Option.some.injEq] at h
              rw [← h] at hx
              rcases mem_keysOf_setKey _ _ _ _ hx with h1 | h1
              · exact Or.inl h1
              · rcases mem_keysOf_applyFields V req.vAuthToken dom req.vAuthAccount _ [] x h1 with h2 | h2
                · exact Or.inr h2
                · simp [keysOf] at h2

/-! ## Sequences of heartbeat updates -/

theorem acceptedNowList_sublist (A : AccessChecker) (V : Validator) (steps : List Step) :
    ∀ dom : DomainRec, List.Sublist (acceptedNowList A V dom steps) (steps.map Step.now) := by
  induction steps with
  | nil => intro dom; simp [acceptedNowList]
  | cons st rest ih =>
      intro dom
      rw [List.map_cons, acceptedNowList]
      cases hc : (procPutDomains A V (mkPutReq dom st) st.now).commit with
      | none => simp only [hc]; exact List.Sublist.cons st.now (ih dom)
      | some cs => simp only [hc]; exact List.Sublist.cons₂ st.now (ih _)

theorem hbAfterList_eq (A : AccessChecker) (V : Validator) (steps : List Step) :
    ∀ dom : DomainRec,
      hbAfterList A V dom steps
        = (acceptedNowList A V dom steps).map (fun t => some (JValue.time t)) := by
  induction steps with
  | nil => intro dom; simp [hbAfterList, acceptedNowList]
  | cons st rest ih =>
      intro dom
      rw [hbAfterList, acceptedNowList]
      cases hc : (procPutDomains A V (mkPutReq dom st) st.now).commit with
      | none => simp only [hc]; exact ih dom
      | some cs =>
          simp only [hc, List.map_cons]
          have hhb := procPutDomains_commit_hb A V (mkPutReq dom st) st.now cs hc
          have hstamp : getKey (Domains.updateEntityFields dom cs).fields "timeOfLastHeartbeat"
              = some (JValue.time st.now) := by
            rw [Domains.updateEntityFields]
            exact getKey_foldl_mem cs _ _ dom.fields hhb.2 hhb.1
          rw [hstamp, ih _]

/-! ## Cascading place removal -/

theorem mem_foldl_removePlace (l : List Place) :
    ∀ s : Store, ∀ q ∈ (l.foldl Places.removePlace s).places,
      q ∈ s.places ∧ ∀ p ∈ l, q.placeId ≠ p.placeId := by
  induction l with
  | nil => intro s q hq; exact ⟨hq, by simp⟩
  | cons p rest ih =>
      intro s q hq
      rw [List.foldl_cons] at hq
      obtain ⟨hq1, hq2⟩ := ih (Places.removePlace s p) q hq
      rw [Places.removePlace] at hq1
      simp only [List.mem_filter] at hq1
      refine ⟨hq1.1, ?_⟩
      intro p' hp'
      rcases List.mem_cons.mp hp' with h | h
      · subst h; simpa using hq1.2
      · exact hq2 p' h

theorem foldl_removePlace_domains (l : List Place) :
    ∀ s : Store, (l.foldl Places.removePlace s).domains = s.domains := by
  induction l with
  | nil => intro s; rfl
  | cons p rest ih => intro s; rw [List.foldl_cons, ih]; rfl

/-! ## Branch characterizations of the DELETE handler -/

theorem procDeleteDomains_notAuthorized (req : DeleteReq) (store : Store)
    (h : ∀ a, req.vAuthAccount = some a → Accounts.isAdmin a = false) :
    procDeleteDomains req store
      = { resp := { failure := some "Not authorized" }, store := store, ops := [] } := by
  cases hacct : req.vAuthAccount with
  | none => simp [procDeleteDomains, hacct]
  | some a => simp [procDeleteDomains, hacct, h a hacct]

theorem procDeleteDomains_noDomain (req : DeleteReq) (store : Store) (acct : Account)
    (hacct : req.vAuthAccount = some acct) (hadm : Accounts.isAdmin acct = true)
    (hdom : req.vDomain = none) :
    procDeleteDomains req store
      = { resp := { failure := some "Target domain does not exist" },
          store := store, ops := [] } := by
  simp [procDeleteDomains, hacct, hadm, hdom]

theorem procDeleteDomains_admin (req : DeleteReq) (store : Store) (acct : Account)
    (dom : DomainRec) (hacct : req.vAuthAccount = some acct)
    (hadm : Accounts.isAdmin acct = true) (hdom : req.vDomain = some dom) :
    procDeleteDomains req store
      = { resp := {},
          store := (Places.enumerateByDomainId (Domains.removeDomain store dom) dom.domainId).foldl
                      Places.removePlace (Domains.removeDomain store dom),
          ops := StoreOp.removeDomain dom.domainId
                  :: (Places.enumerateByDomainId (Domains.removeDomain store dom) dom.domainId).map
                        (fun p => StoreOp.removePlace p.placeId) } := by
  simp [procDeleteDomains, hacct, hadm, hdom]

/-! ## Claims -/

/-- Claim C1: for the update (PUT) operation on a resolved Domain, if the
caller's credential satisfies none of the roles DOMAIN, SPONSOR, ADMIN for
that Domain, the handler responds with failure "Unauthorized" and performs
no commit to the store: no field of the Domain record, including
timeOfLastHeartbeat, is changed. -/
theorem C1_put_unauthorized_no_commit (A : AccessChecker) (V : Validator) (req : PutReq)
    (now : Nat) (dom : DomainRec) (hdom : req.vDomain = some dom)
    (hA : A req.vAuthToken dom putUpdateRoles = false) :
    (procPutDomains A V req now).resp.failure = some "Unauthorized" ∧
    (procPutDomains A V req now).commit = none ∧
    applyCommit dom (procPutDomains A V req now).commit = dom := by
  rw [procPutDomains_denied A V req now dom hdom hA]
  exact ⟨rfl, rfl, rfl⟩

/-- Witness for C1 at a concrete denied request. -/
theorem C1_put_unauthorized_no_commit_witness :
    (procPutDomains (fun _ _ _ => false) (fun _ _ _ _ _ => none)
        { vDomain := some ⟨"D", []⟩, vDomainError := none, vAuthToken := ⟨0⟩,
          vAuthAccount := none,
          body := JValue.obj [("domain", JValue.obj [("capacity", JValue.num 10)])] } 0).resp.failure
      = some "Unauthorized" ∧
    (procPutDomains (fun _ _ _ => false) (fun _ _ _ _ _ => none)
        { vDomain := some ⟨"D", []⟩, vDomainError := none, vAuthToken := ⟨0⟩,
          vAuthAccount := none,
          body := JValue.obj [("domain", JValue.obj [("capacity", JValue.num 10)])] } 0).commit
      = none ∧
    applyCommit ⟨"D", []⟩
        (procPutDomains (fun _ _ _ => false) (fun _ _ _ _ _ => none)
          { vDomain := some ⟨"D", []⟩, vDomainError := none, vAuthToken := ⟨0⟩,
            vAuthAccount := none,
            body := JValue.obj [("domain", JValue.obj [("capacity", JValue.num 10)])] } 0).commit
      = ⟨"D", []⟩ :=
  C1_put_unauthorized_no_commit (fun _ _ _ => false) (fun _ _ _ _ _ => none)
    { vDomain := some ⟨"D", []⟩, vDomainError := none, vAuthToken := ⟨0⟩,
      vAuthAccount := none,
      body := JValue.obj [("domain", JValue.obj [("capacity", JValue.num 10)])] }
    0 ⟨"D", []⟩ rfl rfl

/-- Claim C9: for both GET and PUT, whenever the target Domain could not be
resolved, the response is a failure carrying the resolution error message
(or "Domain not found" when none is available) and the HTTP status is the
Unauthorized code 401, regardless of the underlying cause; the PUT commits
nothing. -/
theorem C9_unresolved_domain_unauthorized (buildInfo : DomainRec → JValue)
    (A : AccessChecker) (V : Validator) (greq : GetReq) (preq : PutReq) (now : Nat)
    (hg : greq.vDomain = none) (hp : preq.vDomain = none) :
    (procGetDomainsDomainid buildInfo greq).failure
        = some (greq.vDomainError.getD "Domain not found") ∧
    (procGetDomainsDomainid buildInfo greq).httpStatus = some 401 ∧
    (procPutDomains A V preq now).resp.failure
        = some (preq.vDomainError.getD "Domain not found") ∧
    (procPutDomains A V preq now).resp.httpStatus = some 401 ∧
    (procPutDomains A V preq now).commit = none := by
  rw [procPutDomains_unresolved A V preq now hp]
  refine ⟨?_, ?_, rfl, rfl, rfl⟩
  · simp [procGetDomainsDomainid, hg]
  · simp [procGetDomainsDomainid, hg]

/-- Witness for C9: one unresolved GET with a forbidden-style resolution
error and one unresolved PUT with no resolution message. -/
theorem C9_unresolved_domain_unauthorized_witness :
    (procGetDomainsDomainid (fun _ => JValue.obj []) ⟨none, some "Forbidden"⟩).failure
      = some "Forbidden" ∧
    (procGetDomainsDomainid (fun _ => JValue.obj []) ⟨none, some "Forbidden"⟩).httpStatus
      = some 401 ∧
    (procPutDomains (fun _ _ _ => true) (fun _ _ _ _ _ => none)
        { vDomain := none, vDomainError := none, vAuthToken := ⟨0⟩,
          vAuthAccount := none, body := JValue.obj [] } 0).resp.failure
      = some "Domain not found" ∧
    (procPutDomains (fun _ _ _ => true) (fun _ _ _ _ _ => none)
        { vDomain := none, vDomainError := none, vAuthToken := ⟨0⟩,
          vAuthAccount := none, body := JValue.obj [] } 0).resp.httpStatus
      = some 401 ∧
    (procPutDomains (fun _ _ _ => true) (fun _ _ _ _ _ => none)
        { vDomain := none, vDomainError := none, vAuthToken := ⟨0⟩,
          vAuthAccount := none, body := JValue.obj [] } 0).commit = none :=
  C9_unresolved_domain_unauthorized (fun _ => JValue.obj []) (fun _ _ _ => true)
    (fun _ _ _ _ _ => none) ⟨none, some "Forbidden"⟩
    { vDomain := none, vDomainError := none, vAuthToken := ⟨0⟩,
      vAuthAccount := none, body := JValue.obj [] } 0 rfl rfl

/-- Claim C7: the delete operation succeeds only for a caller whose resolved
Account carries the administrator flag: a caller with no resolved Account or
a non-admin Account receives failure "Not authorized" with no side effects
(so neither the DOMAIN credential nor the SPONSOR role can delete), and an
admin targeting an unresolved Domain receives failure "Target domain does
not exist" with no side effects. -/
theorem C7_delete_admin_gate (req : DeleteReq) (store : Store) :
    ((∀ a, req.vAuthAccount = some a → Accounts.isAdmin a = false) →
        (procDeleteDomains req store).resp.failure = some "Not authorized" ∧
        (procDeleteDomains req store).store = store ∧
        (procDeleteDomains req store).ops = []) ∧
    (∀ acct, req.vAuthAccount = some acct → Accounts.isAdmin acct = true →
      req.vDomain = none →
        (procDeleteDomains req store).resp.failure = some "Target domain does not exist" ∧
        (procDeleteDomains req store).store = store ∧
        (procDeleteDomains req store).ops = []) := by
  constructor
  · intro h
    rw [procDeleteDomains_notAuthorized req store h]
    exact ⟨rfl, rfl, rfl⟩
  · intro acct hacct hadm hdom
    rw [procDeleteDomains_noDomain req store acct hacct hadm hdom]
    exact ⟨rfl, rfl, rfl⟩

/-- Witness for C7: a non-admin delete attempt and an admin delete of an
unresolved Domain. -/
theorem C7_delete_admin_gate_witness :
    ((procDeleteDomains ⟨some ⟨"user", false⟩, some ⟨"D", []⟩⟩
        ⟨[⟨"D", []⟩], [⟨"p1", "D"⟩]⟩).resp.failure = some "Not authorized" ∧
      (procDeleteDomains ⟨some ⟨"user", false⟩, some ⟨"D", []⟩⟩
        ⟨[⟨"D", []⟩], [⟨"p1", "D"⟩]⟩).store = ⟨[⟨"D", []⟩], [⟨"p1", "D"⟩]⟩) ∧
    (procDeleteDomains ⟨some ⟨"adm", true⟩, none⟩ ⟨[], []⟩).resp.failure
      = some "Target domain does not exist" :=
  ⟨⟨((C7_delete_admin_gate ⟨some ⟨"user", false⟩, some ⟨"D", []⟩⟩
        ⟨[⟨"D", []⟩], [⟨"p1", "D"⟩]⟩).1
      (by intro a ha; cases ha; rfl)).1,
    ((C7_delete_admin_gate ⟨some ⟨"user", false⟩, some ⟨"D", []⟩⟩
        ⟨[⟨"D", []⟩], [⟨"p1", "D"⟩]⟩).1
      (by intro a ha; cases ha; rfl)).2.1⟩,
   ((C7_delete_admin_gate ⟨some ⟨"adm", true⟩, none⟩ ⟨[], []⟩).2
      ⟨"adm", true⟩ rfl rfl rfl).1⟩

/-- Claim C10: the delete handler evaluates the admin check before the
domain-existence check: for a caller whose resolved Account is absent or
non-admin the response is "Not authorized" independently of whether the
target Domain resolved; the two responses are identical record-for-record
and neither request has side effects. -/
theorem C10_delete_admin_before_existence (acct : Option Account) (dom : DomainRec)
    (s1 s2 : Store) (h : ∀ a, acct = some a → Accounts.isAdmin a = false) :
    (procDeleteDomains ⟨acct, some dom⟩ s1).resp = (procDeleteDomains ⟨acct, none⟩ s2).resp ∧
    (procDeleteDomains ⟨acct, some dom⟩ s1).resp.failure = some "Not authorized" ∧
    (procDeleteDomains ⟨acct, some dom⟩ s1).store = s1 ∧
    (procDeleteDomains ⟨acct, none⟩ s2).store = s2 ∧
    (procDeleteDomains ⟨acct, some dom⟩ s1).ops = [] ∧
    (procDeleteDomains ⟨acct, none⟩ s2).ops = [] := by
  rw [procDeleteDomains_notAuthorized ⟨acct, some dom⟩ s1 h,
      procDeleteDomains_notAuthorized ⟨acct, none⟩ s2 h]
  exact ⟨rfl, rfl, rfl, rfl, rfl, rfl⟩

/-- Witness for C10: the same non-admin caller against an existing and a
nonexistent Domain. -/
theorem C10_delete_admin_before_existence_witness :
    (procDeleteDomains ⟨some ⟨"user", false⟩, some ⟨"D", []⟩⟩
        ⟨[⟨"D", []⟩], [⟨"p1", "D"⟩]⟩).resp
      = (procDeleteDomains ⟨some ⟨"user", false⟩, none⟩ ⟨[], []⟩).resp ∧
    (procDeleteDomains ⟨some ⟨"user", false⟩, some ⟨"D", []⟩⟩
        ⟨[⟨"D", []⟩], [⟨"p1", "D"⟩]⟩).store = ⟨[⟨"D", []⟩], [⟨"p1", "D"⟩]⟩ ∧
    (procDeleteDomains ⟨some ⟨"user", false⟩, none⟩ ⟨[], []⟩).ops = [] := by
  have h := C10_delete_admin_before_existence (some ⟨"user", false⟩) ⟨"D", []⟩
    ⟨[⟨"D", []⟩], [⟨"p1", "D"⟩]⟩ ⟨[], []⟩ (by intro a ha; cases ha; rfl)
  exact ⟨h.1, h.2.2.1, h.2.2.2.2.2⟩

/-- Claim C8: on an admin-authorized delete of a resolved Domain, the Domain
is removed first and a removal is then issued for every Place whose domainId
equals the Domain's identifier (the enumeration covers all matching Places);
afterwards no Place referencing the Domain, and no Domain with its
identifier, remains in the store. -/
theorem C8_delete_cascade (req : DeleteReq) (store : Store) (acct : Account)
    (dom : DomainRec) (hacct : req.vAuthAccount = some acct)
    (hadm : Accounts.isAdmin acct = true) (hdom : req.vDomain = some dom) :
    (procDeleteDomains req store).ops
        = StoreOp.removeDomain dom.domainId
            :: (store.places.filter (fun p => p.domainId == dom.domainId)).map
                  (fun p => StoreOp.removePlace p.placeId) ∧
    (∀ p ∈ store.places, p.domainId = dom.domainId →
        StoreOp.removePlace p.placeId ∈ (procDeleteDomains req store).ops) ∧
    (∀ q ∈ (procDeleteDomains req store).store.places, q.domainId ≠ dom.domainId) ∧
    (∀ d ∈ (procDeleteDomains req store).store.domains, d.domainId ≠ dom.domainId) := by
  rw [procDeleteDomains_admin req store acct dom hacct hadm hdom]
  refine ⟨rfl, ?_, ?_, ?_⟩
  · intro p hp hpd
    simp only [List.mem_cons, List.mem_map]
    right
    exact ⟨p, by
      simp only [Places.enumerateByDomainId, Domains.removeDomain, List.mem_filter]
      exact ⟨hp, by simp [hpd]⟩, rfl⟩
  · intro q hq hqd
    obtain ⟨hq1, hq2⟩ := mem_foldl_removePlace _ _ q hq
    have hqm : q ∈ Places.enumerateByDomainId (Domains.removeDomain store dom) dom.domainId := by
      simp only [Places.enumerateByDomainId, List.mem_filter]
      exact ⟨hq1, by simp [hqd]⟩
    exact hq2 q hqm rfl
  · intro d hd
    rw [foldl_removePlace_domains] at hd
    simp only [Domains.removeDomain, List.mem_filter] at hd
    simpa using hd.2

/-- Witness for C8: an admin deletes Domain D with two matching Places and
one Place of another Domain. -/
theorem C8_delete_cascade_witness :
    (procDeleteDomains ⟨some ⟨"adm", true⟩, some ⟨"D", []⟩⟩
        ⟨[⟨"D", []⟩, ⟨"E", []⟩], [⟨"p1", "D"⟩, ⟨"p2", "D"⟩, ⟨"p3", "E"⟩]⟩).ops
      = [StoreOp.removeDomain "D", StoreOp.removePlace "p1", StoreOp.removePlace "p2"] ∧
    (∀ q ∈ (procDeleteDomains ⟨some ⟨"adm", true⟩, some ⟨"D", []⟩⟩
        ⟨[⟨"D", []⟩, ⟨"E", []⟩], [⟨"p1", "D"⟩, ⟨"p2", "D"⟩, ⟨"p3", "E"⟩]⟩).store.places,
      q.domainId ≠ "D") := by
  have h := C8_delete_cascade ⟨some ⟨"adm", true⟩, some ⟨"D", []⟩⟩
    ⟨[⟨"D", []⟩, ⟨"E", []⟩], [⟨"p1", "D"⟩, ⟨"p2", "D"⟩, ⟨"p3", "E"⟩]⟩
    ⟨"adm", true⟩ ⟨"D", []⟩ rfl rfl rfl
  exact ⟨by rw [h.1]; rfl, h.2.2.1⟩

/-- Claim C4: every accepted update (permission granted and payload present)
commits exactly one aggregate change-set, that change-set always contains
timeOfLastHeartbeat set to the call's current time, and across a sequence of
update calls on the same Domain made under a non-decreasing clock, the
stored timeOfLastHeartbeat after the accepted updates is non-decreasing in
call order (each accepted update stores exactly its call time). -/
theorem C4_heartbeat_commit_and_monotone (A : AccessChecker) (V : Validator)
    (dom0 : DomainRec) (steps : List Step)
    (hclock : (steps.map Step.now).Pairwise (· ≤ ·)) :
    (∀ req now dom, req.vDomain = some dom →
        A req.vAuthToken dom putUpdateRoles = true →
        (req.body.getProp "domain").truthy = true →
        ∃ cs, (procPutDomains A V req now).commit = some cs ∧
          getKey cs "timeOfLastHeartbeat" = some (JValue.time now)) ∧
    hbAfterList A V dom0 steps
      = (acceptedNowList A V dom0 steps).map (fun t => some (JValue.time t)) ∧
    (acceptedNowList A V dom0 steps).Pairwise (· ≤ ·) := by
  refine ⟨?_, hbAfterList_eq A V steps dom0, ?_⟩
  · intro req now dom hdom hA ht
    refine ⟨setKey (applyFields V req.vAuthToken dom req.vAuthAccount
        (putFieldCalls (req.body.getProp "domain")) []) "timeOfLastHeartbeat" (JValue.time now),
      ?_, getKey_setKey_self _ _ _⟩
    rw [procPutDomains_accepted A V req now dom hdom hA ht]
  · exact hclock.sublist (acceptedNowList_sublist A V steps dom0)

/-- Witness for C4: two accepted heartbeats at clock values 1 then 2. -/
theorem C4_heartbeat_commit_and_monotone_witness :
    hbAfterList (fun _ _ _ => true) (fun _ _ _ _ _ => none) ⟨"D", []⟩
        [⟨⟨0⟩, none, JValue.obj [("domain", JValue.obj [])], 1⟩,
         ⟨⟨0⟩, none, JValue.obj [("domain", JValue.obj [])], 2⟩]
      = [some (JValue.time 1), some (JValue.time 2)] ∧
    (acceptedNowList (fun _ _ _ => true) (fun _ _ _ _ _ => none) ⟨"D", []⟩
        [⟨⟨0⟩, none, JValue.obj [("domain", JValue.obj [])], 1⟩,
         ⟨⟨0⟩, none, JValue.obj [("domain", JValue.obj [])], 2⟩]).Pairwise (· ≤ ·) := by
  have h := C4_heartbeat_commit_and_monotone (fun _ _ _ => true) (fun _ _ _ _ _ => none)
    ⟨"D", []⟩
    [⟨⟨0⟩, none, JValue.obj [("domain", JValue.obj [])], 1⟩,
     ⟨⟨0⟩, none, JValue.obj [("domain", JValue.obj [])], 2⟩]
    (by simp [List.pairwise_cons])
  refine ⟨?_, h.2.2⟩
  rw [h.2.1]
  rfl

/-- Counterexample to claim C2 as stated, at f = "timeOfLastHeartbeat": that
field name is outside both allow-lists and distinct from the
heartbeat-derived names, yet an accepted update request containing it does
change the Domain's stored state for it, because the handler stamps
timeOfLastHeartbeat unconditionally on every accepted update. -/
theorem C2_counterexample :
    ("timeOfLastHeartbeat" ∉ flatAllowList ∧ "timeOfLastHeartbeat" ∉ metaAllowList ∧
      "timeOfLastHeartbeat" ≠ "num_users" ∧ "timeOfLastHeartbeat" ≠ "num_anon_users") ∧
    ((JValue.obj [("domain", JValue.obj [("timeOfLastHeartbeat", JValue.time 999)])]).getProp
        "domain").getOwn "timeOfLastHeartbeat" = some (JValue.time 999) ∧
    getKey (⟨"D", [("timeOfLastHeartbeat", JValue.time 0)]⟩ : DomainRec).fields
        "timeOfLastHeartbeat" = some (JValue.time 0) ∧
    getKey (applyCommit ⟨"D", [("timeOfLastHeartbeat", JValue.time 0)]⟩
        (procPutDomains (fun _ _ _ => true) (fun _ _ _ _ _ => none)
          { vDomain := some ⟨"D", [("timeOfLastHeartbeat", JValue.time 0)]⟩,
            vDomainError := none, vAuthToken := ⟨0⟩, vAuthAccount := none,
            body := JValue.obj [("domain",
              JValue.obj [("timeOfLastHeartbeat", JValue.time 999)])] } 5).commit).fields
        "timeOfLastHeartbeat" = some (JValue.time 5) ∧
    some (JValue.time 5) ≠ some (JValue.time 0) := by
  refine ⟨⟨by decide, by decide, by decide, by decide⟩, rfl, rfl, rfl, by simp⟩

/-- Claim C2 (amended): for every field name f outside the flat allow-list,
outside the nested meta allow-list, distinct from the heartbeat-derived
names num_users and num_anon_users, and also distinct from
timeOfLastHeartbeat (which the handler itself stamps on every accepted
update), an update request containing f never passes f to the field update
engine and never changes the Domain's stored state for f, regardless of
credential or value. -/
theorem C2_unknown_field_frame (A : AccessChecker) (V : Validator) (req : PutReq)
    (now : Nat) (dom : DomainRec) (f : String)
    (h1 : f ∉ flatAllowList) (h2 : f ∉ metaAllowList)
    (h3 : f ≠ "num_users") (h4 : f ≠ "num_anon_users")
    (h5 : f ≠ "timeOfLastHeartbeat") :
    (∀ valuesToSet : JValue, f ∉ (putFieldCalls valuesToSet).map Prod.fst) ∧
    getKey (applyCommit dom (procPutDomains A V req now).commit).fields f
      = getKey dom.fields f := by
  have hnames : ∀ valuesToSet : JValue, f ∉ (putFieldCalls valuesToSet).map Prod.fst := by
    intro v hv
    rcases putFieldCalls_names v f hv with h | h | h | h
    exacts [h1 h, h3 h, h4 h, h2 h]
  refine ⟨hnames, ?_⟩
  cases hc : (procPutDomains A V req now).commit with
  | none => rfl
  | some cs =>
      simp only [applyCommit, Domains.updateEntityFields]
      refine getKey_foldl_not_mem cs f dom.fields ?_
      intro hmem
      rcases procPutDomains_commit_keys A V req now cs hc f hmem with h | h
      · exact h5 h
      · exact hnames _ h

/-- Witness for C2 (amended) at f = "password_hash", with an accepting
permission gate, a permissive validator and a payload carrying that field. -/
theorem C2_unknown_field_frame_witness :
    getKey (applyCommit ⟨"D", [("password_hash", JValue.str "h")]⟩
        (procPutDomains (fun _ _ _ => true) (fun _ _ _ _ v => some v)
          { vDomain := some ⟨"D", [("password_hash", JValue.str "h")]⟩,
            vDomainError := none, vAuthToken := ⟨0⟩, vAuthAccount := none,
            body := JValue.obj [("domain",
              JValue.obj [("password_hash", JValue.str "owned")])] } 9).commit).fields
        "password_hash"
      = getKey (⟨"D", [("password_hash", JValue.str "h")]⟩ : DomainRec).fields
          "password_hash" :=
  (C2_unknown_field_frame (fun _ _ _ => true) (fun _ _ _ _ v => some v)
    { vDomain := some ⟨"D", [("password_hash", JValue.str "h")]⟩,
      vDomainError := none, vAuthToken := ⟨0⟩, vAuthAccount := none,
      body := JValue.obj [("domain", JValue.obj [("password_hash", JValue.str "owned")])] }
    9 ⟨"D", [("password_hash", JValue.str "h")]⟩ "password_hash"
    (by decide) (by decide) (by decide) (by decide) (by decide)).2

/-- Counterexample to claim C3 as stated: an empty `domain` object is truthy
in JavaScript, so with an authorized caller the handler does not report
"badly formed data" for the payload `domain: \x7b\x7d` and instead commits a
change-set containing the heartbeat stamp. -/
theorem C3_counterexample :
    (procPutDomains (fun _ _ _ => true) (fun _ _ _ _ _ => none)
        { vDomain := some ⟨"D", []⟩, vDomainError := none, vAuthToken := ⟨0⟩,
          vAuthAccount := none, body := JValue.obj [("domain", JValue.obj [])] } 7).resp.failure
      = none ∧
    (procPutDomains (fun _ _ _ => true) (fun _ _ _ _ _ => none)
        { vDomain := some ⟨"D", []⟩, vDomainError := none, vAuthToken := ⟨0⟩,
          vAuthAccount := none, body := JValue.obj [("domain", JValue.obj [])] } 7).commit
      = some [("timeOfLastHeartbeat", JValue.time 7)] :=
  ⟨rfl, rfl⟩

/-- Claim C3 (amended): with a resolved Domain and an authorized caller, the
handler responds "badly formed data" with no commit exactly when the request
body's `domain` value is missing or otherwise falsy; an empty `domain`
object is truthy, so for it the update is accepted without failure and the
committed change-set contains only the heartbeat stamp. -/
theorem C3_badly_formed_only_when_falsy (A : AccessChecker) (V : Validator) (req : PutReq)
    (now : Nat) (dom : DomainRec) (hdom : req.vDomain = some dom)
    (hA : A req.vAuthToken dom putUpdateRoles = true) :
    ((req.body.getProp "domain").truthy = false →
        (procPutDomains A V req now).resp.failure = some "badly formed data" ∧
        (procPutDomains A V req now).commit = none) ∧
    (req.body.getProp "domain" = JValue.obj [] →
        (procPutDomains A V req now).resp.failure = none ∧
        (procPutDomains A V req now).commit
          = some [("timeOfLastHeartbeat", JValue.time now)]) := by
  constructor
  · intro ht
    rw [procPutDomains_noPayload A V req now dom hdom hA ht]
    exact ⟨rfl, rfl⟩
  · intro hempty
    have ht : (req.body.getProp "domain").truthy = true := by rw [hempty]; rfl
    rw [procPutDomains_accepted A V req now dom hdom hA ht, hempty]
    exact ⟨rfl, rfl⟩

/-- Witness for C3 (amended): a missing payload yields "badly formed data";
the empty-object payload yields a heartbeat-only commit. -/
theorem C3_badly_formed_only_when_falsy_witness :
    (procPutDomains (fun _ _ _ => true) (fun _ _ _ _ _ => none)
        { vDomain := some ⟨"D", []⟩, vDomainError := none, vAuthToken := ⟨0⟩,
          vAuthAccount := none, body := JValue.obj [] } 4).resp.failure
      = some "badly formed data" ∧
    (procPutDomains (fun _ _ _ => true) (fun _ _ _ _ _ => none)
        { vDomain := some ⟨"D", []⟩, vDomainError := none, vAuthToken := ⟨0⟩,
          vAuthAccount := none, body := JValue.obj [("domain", JValue.obj [])] } 4).commit
      = some [("timeOfLastHeartbeat", JValue.time 4)] :=
  ⟨((C3_badly_formed_only_when_falsy (fun _ _ _ => true) (fun _ _ _ _ _ => none)
      { vDomain := some ⟨"D", []⟩, vDomainError := none, vAuthToken := ⟨0⟩,
        vAuthAccount := none, body := JValue.obj [] } 4 ⟨"D", []⟩ rfl rfl).1 rfl).1,
   ((C3_badly_formed_only_when_falsy (fun _ _ _ => true) (fun _ _ _ _ _ => none)
      { vDomain := some ⟨"D", []⟩, vDomainError := none, vAuthToken := ⟨0⟩,
        vAuthAccount := none, body := JValue.obj [("domain", JValue.obj [])] } 4
      ⟨"D", []⟩ rfl rfl).2 rfl).2⟩

/-- Counterexample to claim C5 as stated: a payload carrying both a flat
allow-listed field (version) and a meta object (with world_name) has both
shapes' fields extracted, passed to the field update engine, and applied in
one committed change-set — the shapes are not mutually exclusive. -/
theorem C5_counterexample :
    putFieldCalls (JValue.obj [("version", JValue.str "V1"),
        ("meta", JValue.obj [("world_name", JValue.str "W")])])
      = [("version", JValue.str "V1"), ("world_name", JValue.str "W")] ∧
    (procPutDomains (fun _ _ _ => true) (fun _ _ _ _ v => some v)
        { vDomain := some ⟨"D", []⟩, vDomainError := none, vAuthToken := ⟨0⟩,
          vAuthAccount := none,
          body := JValue.obj [("domain", JValue.obj [("version", JValue.str "V1"),
              ("meta", JValue.obj [("world_name", JValue.str "W")])])] } 3).commit
      = some [("version", JValue.str "V1"), ("world_name", JValue.str "W"),
              ("timeOfLastHeartbeat", JValue.time 3)] :=
  ⟨rfl, rfl⟩

/-- Claim C5 (amended): when the payload contains a truthy nested `meta`
object, the meta allow-list is applied in addition to the flat shape, not
instead of it: flat allow-listed fields are applied first and meta fields
after them in the same update, and with a validator accepting both, both end
up in the single committed change-set. -/
theorem C5_both_shapes_applied (A : AccessChecker) (V : Validator) (tok : AuthToken)
    (acct : Option Account) (dom : DomainRec) (now : Nat) (vv wv a b : JValue)
    (hA : A tok dom putUpdateRoles = true)
    (hv : V tok dom acct "version" vv = some a)
    (hw : V tok dom acct "world_name" wv = some b) :
    ∃ cs, (procPutDomains A V
        { vDomain := some dom, vDomainError := none, vAuthToken := tok,
          vAuthAccount := acct,
          body := JValue.obj [("domain", JValue.obj [("version", vv),
              ("meta", JValue.obj [("world_name", wv)])])] } now).commit = some cs ∧
      getKey cs "version" = some a ∧ getKey cs "world_name" = some b ∧
      getKey cs "timeOfLastHeartbeat" = some (JValue.time now) := by
  have hacc := procPutDomains_accepted A V
    { vDomain := some dom, vDomainError := none, vAuthToken := tok,
      vAuthAccount := acct,
      body := JValue.obj [("domain", JValue.obj [("version", vv),
          ("meta", JValue.obj [("world_name", wv)])])] } now dom rfl hA rfl
  rw [hacc]
  have happ : applyFields V tok dom acct
      (putFieldCalls ((JValue.obj [("domain", JValue.obj [("version", vv),
          ("meta", JValue.obj [("world_name", wv)])])] : JValue).getProp "domain")) []
      = [("version", a), ("world_name", b)] := by
    show setDomainField V tok dom "world_name" wv acct
        (setDomainField V tok dom "version" vv acct []) = _
    unfold setDomainField
    rw [hv, hw]
    rfl
  rw [happ]
  exact ⟨_, rfl, rfl, rfl, rfl⟩

/-- Witness for C5 (amended) at concrete values for both shapes' fields. -/
theorem C5_both_shapes_applied_witness :
    ∃ cs, (procPutDomains (fun _ _ _ => true) (fun _ _ _ _ v => some v)
        { vDomain := some ⟨"D", []⟩, vDomainError := none, vAuthToken := ⟨1⟩,
          vAuthAccount := none,
          body := JValue.obj [("domain", JValue.obj [("version", JValue.str "x"),
              ("meta", JValue.obj [("world_name", JValue.str "y")])])] } 2).commit = some cs ∧
      getKey cs "version" = some (JValue.str "x") ∧
      getKey cs "world_name" = some (JValue.str "y") ∧
      getKey cs "timeOfLastHeartbeat" = some (JValue.time 2) :=
  C5_both_shapes_applied (fun _ _ _ => true) (fun _ _ _ _ v => some v) ⟨1⟩ none
    ⟨"D", []⟩ 2 (JValue.str "x") (JValue.str "y") (JValue.str "x") (JValue.str "y")
    rfl rfl rfl

/-- Counterexample to claim C6 as stated: with a resolved Domain, a caller
that fails the permission gate and sent no payload receives "Unauthorized",
not the "badly formed data" outcome the claimed check ordering implies. -/
theorem C6_counterexample :
    ((JValue.obj [] : JValue).getProp "domain").truthy = false ∧
    (procPutDomains (fun _ _ _ => false) (fun _ _ _ _ _ => none)
        { vDomain := some ⟨"D", []⟩, vDomainError := none, vAuthToken := ⟨0⟩,
          vAuthAccount := none, body := JValue.obj [] } 1).resp.failure
      = some "Unauthorized" ∧
    some "Unauthorized" ≠ some "badly formed data" := by
  exact ⟨rfl, rfl, by decide⟩

/-- Claim C6 (amended): after resolution, the update path checks permission
before payload presence: a caller failing the permission gate receives
"Unauthorized" regardless of payload, and "badly formed data" arises only
after permission is granted, when the payload is missing or falsy. -/
theorem C6_permission_before_payload (A : AccessChecker) (V : Validator) (req : PutReq)
    (now : Nat) (dom : DomainRec) (hdom : req.vDomain = some dom) :
    (A req.vAuthToken dom putUpdateRoles = false →
        (procPutDomains A V req now).resp.failure = some "Unauthorized") ∧
    (A req.vAuthToken dom putUpdateRoles = true →
      (req.body.getProp "domain").truthy = false →
        (procPutDomains A V req now).resp.failure = some "badly formed data") := by
  constructor
  · intro hA
    rw [procPutDomains_denied A V req now dom hdom hA]
  · intro hA ht
    rw [procPutDomains_noPayload A V req now dom hdom hA ht]

/-- Witness for C6 (amended): a denied caller with no payload gets
"Unauthorized"; a permitted caller with no payload gets "badly formed
data". -/
theorem C6_permission_before_payload_witness :
    (procPutDomains (fun _ _ _ => false) (fun _ _ _ _ _ => none)
        { vDomain := some ⟨"D", []⟩, vDomainError := none, vAuthToken := ⟨0⟩,
          vAuthAccount := none, body := JValue.obj [] } 6).resp.failure
      = some "Unauthorized" ∧
    (procPutDomains (fun _ _ _ => true) (fun _ _ _ _ _ => none)
        { vDomain := some ⟨"D", []⟩, vDomainError := none, vAuthToken := ⟨0⟩,
          vAuthAccount := none, body := JValue.obj [] } 6).resp.failure
      = some "badly formed data" :=
  ⟨(C6_permission_before_payload (fun _ _ _ => false) (fun _ _ _ _ _ => none)
      { vDomain := some ⟨"D", []⟩, vDomainError := none, vAuthToken := ⟨0⟩,
        vAuthAccount := none, body := JValue.obj [] } 6 ⟨"D", []⟩ rfl).1 rfl,
   (C6_permission_before_payload (fun _ _ _ => true) (fun _ _ _ _ _ => none)
      { vDomain := some ⟨"D", []⟩, vDomainError := none, vAuthToken := ⟨0⟩,
        vAuthAccount := none, body := JValue.obj [] } 6 ⟨"D", []⟩ rfl).2 rfl rfl⟩
